import Mathlib

/-!
Verification development for the AquiferPulse core: the ASI pipeline
(`scripts/compute_asi.py`) and the query layer (`app/main.py`).

Modelling conventions:
* Floating-point numbers are idealized as exact rationals (`ℚ`); a pandas
  `NaN` / missing cell is `Option.none`.
* The per-basin z-score stage needs a square root, so it is embedded over
  `ℝ` (`Real.sqrt` of the population variance), mirroring
  `s.std(ddof=0)`.
* A month timestamp is idealized as a natural number (`ℕ`): the code only
  ever compares dates, and `YYYY-MM-DD` strings compare chronologically.
* Python's stable `sort` / pandas `sort_values` is modelled with
  `List.insertionSort` (a stable sort).
-/

/-- Nominal weight of the storage-anomaly (`twsa_z`) component
(`W_TWSA = 0.4` in `compute_asi.py`). -/
def W_TWSA : ℚ := 0.4

/-- Nominal weight of the soil-moisture (`sm_z`) component (`W_SM = 0.4`). -/
def W_SM : ℚ := 0.4

/-- Nominal weight of the rain (`rain_z`) component (`W_RAIN = 0.2`). -/
def W_RAIN : ℚ := 0.2

/-- Alert threshold (`ALERT_T = -1.0`). -/
def ALERT_T : ℚ := -1.0

/-- Watch threshold (`WATCH_T = -0.5`). -/
def WATCH_T : ℚ := -0.5

/-- `comp.fillna(0.0)` applied to one cell: a missing score contributes 0 to
the weighted numerator. -/
def fill0 : Option ℚ → ℚ
  | Option.none => 0
  | Option.some v => v

/-- One entry of `mask * w`: the weight if the score is present, else 0. -/
def maskW (x : Option ℚ) (w : ℚ) : ℚ := if x.isSome then w else 0

/-- `den = (mask * w).sum(axis=1)` for one row: the sum of the nominal
weights of the present components. -/
def asiDen (tz sz rz : Option ℚ) : ℚ := maskW tz W_TWSA + maskW sz W_SM + maskW rz W_RAIN

/-- `num = (comp.fillna(0.0) * w).sum(axis=1)` for one row. -/
def asiNum (tz sz rz : Option ℚ) : ℚ := fill0 tz * W_TWSA + fill0 sz * W_SM + fill0 rz * W_RAIN

/-- `asi = np.divide(num, den, out=nan, where=den>0)` for one row: the
composite index from the three z-score columns `twsa_z`, `sm_z`, `rain_z`
(`compute_asi.py` lines 96-107). -/
def asiOf (tz sz rz : Option ℚ) : Option ℚ :=
  if 0 < asiDen tz sz rz then Option.some (asiNum tz sz rz / asiDen tz sz rz) else Option.none

/-- The effective weight the renormalized composite gives one component:
its masked nominal weight divided by the row's weight denominator. -/
def effW (x : Option ℚ) (w den : ℚ) : ℚ := maskW x w / den

/-- Modelled from the spec: `composite = Σ(weight_i × score_i for i in
available) / Σ(weight_i for i in available)`, missing when no score is
available.  Each list entry pairs a nominal weight with its possibly
missing score. -/
def specComposite (items : List (ℚ × Option ℚ)) : Option ℚ :=
  let avail := items.filterMap (fun p => p.2.map (fun v => (p.1, v)))
  if avail = [] then Option.none
  else Option.some ((avail.map (fun p => p.1 * p.2)).sum / (avail.map (fun p => p.1)).sum)

/-- `_classify` from `compute_asi.py`: missing ↦ `no-data`, `asi ≤ ALERT_T`
↦ `alert`, `asi ≤ WATCH_T` ↦ `watch`, else `normal`. -/
def _classify : Option ℚ → String
  | Option.none => "no-data"
  | Option.some a => if a ≤ ALERT_T then "alert" else if a ≤ WATCH_T then "watch" else "normal"

/-- Severity rank of a classification label, for stating monotonicity
(alert is most severe). -/
def severity (c : String) : ℕ :=
  if c = "alert" then 3 else if c = "watch" then 2 else if c = "normal" then 1 else 0

/-- Which column the precipitation source supplied (`rain_col` in `main`):
a `rain` column, a `rain_def` column, or no usable precipitation source. -/
inductive RainCol where
  | rain : RainCol
  | rain_def : RainCol
  | absent : RainCol
deriving DecidableEq

/-- Lines 86-94 of `compute_asi.py` for one row: from the source-column
choice and the z-score `z` computed from the source column, produce the
pair `(rain_z, rain_def_z)`.  With a `rain` column, `rain_z := z` and
`rain_def_z := -rain_z`; with a `rain_def` column, `rain_def_z := z` and
`rain_z := -rain_def_z`; with no source, both are missing. -/
def rainPair : RainCol → Option ℚ → Option ℚ × Option ℚ
  | RainCol.rain, z => (z, z.map (fun v => -v))
  | RainCol.rain_def, z => (z.map (fun v => -v), z)
  | RainCol.absent, _ => (Option.none, Option.none)

/-- Round-half-to-even to an integer, as Python's builtin `round` does on
an exact value. -/
def roundHalfEven (x : ℚ) : ℤ :=
  if x - ⌊x⌋ < 1/2 then ⌊x⌋
  else if 1/2 < x - ⌊x⌋ then ⌊x⌋ + 1
  else if Even ⌊x⌋ then ⌊x⌋ else ⌊x⌋ + 1

/-- `round(x, 3)` idealized over exact rationals. -/
def round3 (q : ℚ) : ℚ := (roundHalfEven (q * 1000) : ℚ) / 1000

/-- `_r` from `compute_asi.py` / `app/main.py`: `None` stays `None`, a
number is rounded to 3 decimal places. -/
def _r : Option ℚ → Option ℚ
  | Option.none => Option.none
  | Option.some q => Option.some (round3 q)

/-- One row of the merged wide table right before the ASI block: raw values
and the four z-score columns (`compute_asi.py` after line 94). -/
structure WideRow where
  basin_id : String
  date : ℕ
  twsa : Option ℚ
  sm : Option ℚ
  rain : Option ℚ
  rain_def : Option ℚ
  twsa_z : Option ℚ
  sm_z : Option ℚ
  rain_z : Option ℚ
  rain_def_z : Option ℚ
deriving DecidableEq

/-- One row of the persisted output table `asi_table.csv` (column order of
`out_cols` plus the derived `asi` and `class`). -/
structure OutRow where
  basin_id : String
  date : ℕ
  twsa : Option ℚ
  sm : Option ℚ
  rain : Option ℚ
  rain_def : Option ℚ
  twsa_z : Option ℚ
  sm_z : Option ℚ
  rain_z : Option ℚ
  rain_def_z : Option ℚ
  asi : Option ℚ
  cls : String
deriving DecidableEq

/-- Lines 96-108 for one row: copy every column verbatim and derive `asi`
and `class`.  No rounding is applied to any value. -/
def mkOut (r : WideRow) : OutRow :=
  { basin_id := r.basin_id, date := r.date, twsa := r.twsa, sm := r.sm,
    rain := r.rain, rain_def := r.rain_def, twsa_z := r.twsa_z, sm_z := r.sm_z,
    rain_z := r.rain_z, rain_def_z := r.rain_def_z,
    asi := asiOf r.twsa_z r.sm_z r.rain_z,
    cls := _classify (asiOf r.twsa_z r.sm_z r.rain_z) }

/-- The sort key of `df.sort_values(["basin_id","date"])`: lexicographic on
the basin-id string (compared as its character list, which is what string
comparison is), then on the month. -/
def outLe (a b : OutRow) : Prop :=
  a.basin_id.data < b.basin_id.data ∨ (a.basin_id = b.basin_id ∧ a.date ≤ b.date)

instance : DecidableRel outLe := fun a b => by
  unfold outLe
  infer_instance

/-- Lines 96-118: derive `asi`/`class` for every row and sort the table by
`(basin_id, date)`; this is the row list written to `asi_table.csv`. -/
def outputTable (rows : List WideRow) : List OutRow :=
  List.insertionSort outLe (rows.map mkOut)

/-- How `DataFrame.to_csv` serializes one optional cell: a missing value
becomes the empty field (default `na_rep=""`), a number is rendered by the
given numeral writer.  No rounding happens here. -/
def csvCell (render : ℚ → String) : Option ℚ → String
  | Option.none => ""
  | Option.some q => render q

/-- Maximum of a list of month keys (`Series.max()`: `None` on an empty
series). -/
def listMax : List ℕ → Option ℕ
  | [] => Option.none
  | d :: ds =>
      match listMax ds with
      | Option.none => Option.some d
      | Option.some m => Option.some (max d m)

/-- The dates of the rows with a non-missing `asi` (the dates whose
coverage count `cov` is positive). -/
def datesWithCov (rows : List OutRow) : List ℕ :=
  (rows.filter (fun r => r.asi.isSome)).map (fun r => r.date)

/-- Lines 121-127: `cov[cov>0].index.max()` when some month has coverage,
else `df_out["date_dt"].max()`. -/
def coverageDate (rows : List OutRow) : Option ℕ :=
  match listMax (datesWithCov rows) with
  | Option.some d => Option.some d
  | Option.none => listMax (rows.map (fun r => r.date))

/-- One record returned by the history endpoint (`/asi/history`): the
derived fields of a table row, numeric fields passed through `_r`. -/
structure HistRec where
  date : ℕ
  twsa_z : Option ℚ
  sm_z : Option ℚ
  rain_z : Option ℚ
  rain_def_z : Option ℚ
  asi : Option ℚ
  cls : String
deriving DecidableEq

/-- Builds one history record from a table row (`asi_history`'s row dict). -/
def toRec (r : OutRow) : HistRec :=
  { date := r.date, twsa_z := _r r.twsa_z, sm_z := _r r.sm_z, rain_z := _r r.rain_z,
    rain_def_z := _r r.rain_def_z, asi := _r r.asi, cls := r.cls }

/-- `asi_history` from `app/main.py`: keep the table rows whose `basin_id`
matches, in table order; an empty result is a 404 error. -/
def asi_history (table : List OutRow) (basin_id : String) : Except String (List HistRec) :=
  let out := (table.filter (fun row => row.basin_id = basin_id)).map toRec
  if out = [] then Except.error ("No history for basin_id=" ++ basin_id) else Except.ok out

/-- One feature's properties in the snapshot GeoJSON consumed by the
ranking endpoint. -/
structure Feature where
  basin_id : String
  name : String
  asi : Option ℚ
  cls : String
  date : Option ℕ
deriving DecidableEq

/-- One entry of the ranking response. -/
structure RankRow where
  basin_id : String
  name : String
  asi : ℚ
  cls : String
  date : Option ℕ
deriving DecidableEq

/-- The row dict `asi_top10` builds for a feature with a numeric `asi`. -/
def mkRankRow (f : Feature) (a : ℚ) : RankRow :=
  { basin_id := f.basin_id, name := f.name, asi := round3 a, cls := f.cls, date := f.date }

/-- The rows of all features carrying a numeric composite score. -/
def numRows (features : List Feature) : List RankRow :=
  features.filterMap (fun f => f.asi.map (fun a => mkRankRow f a))

/-- Python `str.split(",")` on the character list: split at every comma,
keeping empty pieces (so `""` yields `[[]]`). -/
def splitCommas : List Char → List (List Char)
  | [] => [[]]
  | c :: rest =>
      if c = ',' then [] :: splitCommas rest
      else
        match splitCommas rest with
        | [] => [[c]]
        | g :: gs => (c :: g) :: gs

/-- Python `str.strip()`: drop whitespace from both ends. -/
def stripChars (l : List Char) : List Char :=
  ((l.dropWhile Char.isWhitespace).reverse.dropWhile Char.isWhitespace).reverse

/-- `{c.strip() for c in classes.split(",") if c.strip()}` from
`asi_top10`, as a list of the distinct kept labels in order. -/
def wantedOf (classes : String) : List String :=
  ((splitCommas classes.toList).map (fun g => String.mk (stripChars g))).filter (fun c => c ≠ "")

/-- Sort key of `rows.sort(key=lambda r: r["asi"])`. -/
def rankLe (a b : RankRow) : Prop := a.asi ≤ b.asi

instance : DecidableRel rankLe := fun a b => by
  unfold rankLe
  infer_instance

/-- The default of the `classes` query parameter of `asi_top10`. -/
def defaultClasses : String := "alert,watch"

/-- `asi_top10` from `app/main.py`, over the features of the chosen
snapshot: keep numeric-`asi` features, filter by the wanted classes when
the wanted set is non-empty, sort ascending by `asi` (stably), truncate to
`max 0 limit`. -/
def asi_top10 (features : List Feature) (limit : ℤ) (classes : String) : List RankRow :=
  let wanted := wantedOf classes
  let rows := numRows features
  let rows := if wanted = [] then rows else rows.filter (fun r => r.cls ∈ wanted)
  (List.insertionSort rankLe rows).take (max 0 limit).toNat

/-- One row `(basin_id, value)` of one signal column of the merged table,
as seen by `_z_by_basin`. -/
structure SigRow where
  basin : String
  val : Option ℝ

/-- The non-missing values of basin `b`'s series for the signal (pandas
`mean`/`std` skip `NaN`). -/
def basinVals (t : List SigRow) (b : String) : List ℝ :=
  t.filterMap (fun r => if r.basin = b then r.val else Option.none)

/-- `Series.mean()` of a fully non-missing series. -/
noncomputable def seriesMean (l : List ℝ) : ℝ := l.sum / l.length

/-- Population variance of a series (the square of `s.std(ddof=0)`). -/
noncomputable def popVar (l : List ℝ) : ℝ :=
  ((l.map (fun x => (x - seriesMean l) ^ 2)).sum) / l.length

/-- `s.std(ddof=0)`: the population standard deviation. -/
noncomputable def popStd (l : List ℝ) : ℝ := Real.sqrt (popVar l)

/-- `_z_by_basin` from `compute_asi.py`, at one row: with `vs` the row's
basin's non-missing history of the signal, return
`(x - vs.mean()) / vs.std(ddof=0)` when that standard deviation is
positive, and missing otherwise (also when the row's own value is
missing). -/
noncomputable def zTransform (t : List SigRow) (r : SigRow) : Option ℝ :=
  if 0 < popStd (basinVals t r.basin) then
    r.val.map (fun v => (v - seriesMean (basinVals t r.basin)) / popStd (basinVals t r.basin))
  else Option.none

/-- `_z_by_basin` applied to the whole column (`groupby("basin_id")` then
`transform`): each row's z-score from its own basin's series. -/
noncomputable def _z_by_basin (t : List SigRow) : List (Option ℝ) :=
  t.map (zTransform t)

/-- A table row with only basin, date, z-score and asi data, for concrete
instances. -/
def mkRow0 (b : String) (d : ℕ) (a : Option ℚ) : OutRow :=
  { basin_id := b, date := d, twsa := Option.none, sm := Option.none, rain := Option.none,
    rain_def := Option.none, twsa_z := Option.none, sm_z := Option.none,
    rain_z := Option.none, rain_def_z := Option.none, asi := a, cls := _classify a }

/-- A wide row with only basin, date and z-score data, for concrete
instances. -/
def mkWide0 (b : String) (d : ℕ) (tz sz rz : Option ℚ) : WideRow :=
  { basin_id := b, date := d, twsa := Option.none, sm := Option.none, rain := Option.none,
    rain_def := Option.none, twsa_z := tz, sm_z := sz, rain_z := rz,
    rain_def_z := rz.map (fun v => -v) }

/-- Concrete table: month 1 has two numeric composite values, month 2 is
chronologically later but all-missing. -/
def demoCov : List OutRow :=
  [mkRow0 "B1" 1 (Option.some (-1.2)), mkRow0 "B2" 1 (Option.some (-0.3)),
   mkRow0 "B1" 2 Option.none, mkRow0 "B2" 2 Option.none]

/-- Concrete table whose composite scores are all missing. -/
def demoNoCov : List OutRow :=
  [mkRow0 "B1" 1 Option.none, mkRow0 "B1" 2 Option.none]

/-- Concrete table for the history endpoint: basin `B1` has two rows, both
with a missing composite. -/
def demoHist : List OutRow :=
  [mkRow0 "B1" 1 Option.none, mkRow0 "B1" 2 Option.none, mkRow0 "B2" 1 (Option.some 0.25)]

/-- Concrete pipeline input for the history endpoint, deliberately out of
order: basin `B1`, month 2 before month 1. -/
def demoSrc : List WideRow :=
  [mkWide0 "B1" 2 (Option.some 1) Option.none Option.none,
   mkWide0 "B1" 1 Option.none Option.none Option.none]

/-- The history rows the pipeline output of `demoSrc` yields for `B1`. -/
def demoHistOut : List HistRec :=
  ((outputTable demoSrc).filter (fun row => row.basin_id = "B1")).map toRec

/-- Concrete snapshot features: one `alert` basin and one `normal` basin,
both with numeric composite scores. -/
def demoFeatures : List Feature :=
  [{ basin_id := "A", name := "A", asi := Option.some (-1.5), cls := "alert",
     date := Option.some 1 },
   { basin_id := "B", name := "B", asi := Option.some 0.2, cls := "normal",
     date := Option.some 1 },
   { basin_id := "C", name := "C", asi := Option.none, cls := "no-data",
     date := Option.some 1 }]

/-- Concrete one-signal column: basin `A` has the two observations 0 and
2, basin `B` has one. -/
def demoSig : List SigRow :=
  [SigRow.mk "A" (Option.some 0), SigRow.mk "A" (Option.some 2), SigRow.mk "B" (Option.some 5)]

/-- The second row of `demoSig` (basin `A`, value 2). -/
def demoSigRow : SigRow := SigRow.mk "A" (Option.some 2)

/-- The ranking row of the alert basin of `demoFeatures`. -/
def demoAlertRow : RankRow :=
  { basin_id := "A", name := "A", asi := -3/2, cls := "alert", date := Option.some 1 }

instance : IsTotal OutRow outLe := by
  constructor
  intro a b
  rcases lt_trichotomy a.basin_id.data b.basin_id.data with h | h | h
  · exact Or.inl (Or.inl h)
  · have he : a.basin_id = b.basin_id := by
      have hx := congrArg String.mk h
      simpa using hx
    rcases le_total a.date b.date with hd | hd
    · exact Or.inl (Or.inr ⟨he, hd⟩)
    · exact Or.inr (Or.inr ⟨he.symm, hd⟩)
  · exact Or.inr (Or.inl h)

instance : IsTrans OutRow outLe := by
  constructor
  intro a b c hab hbc
  rcases hab with hab | ⟨hab, hd⟩
  · rcases hbc with hbc | ⟨hbc, _⟩
    · exact Or.inl (lt_trans hab hbc)
    · exact Or.inl (hbc ▸ hab)
  · rcases hbc with hbc | ⟨hbc, hd'⟩
    · exact Or.inl (hab ▸ hbc)
    · exact Or.inr ⟨hab.trans hbc, hd.trans hd'⟩

instance : IsTotal RankRow rankLe := by
  constructor
  intro a b
  exact le_total a.asi b.asi

instance : IsTrans RankRow rankLe := by
  constructor
  intro a b c hab hbc
  exact le_trans hab hbc

theorem listMax_mem {l : List ℕ} {m : ℕ} (h : listMax l = Option.some m) : m ∈ l := by
  induction l with
  | nil => simp [listMax] at h
  | cons d ds ih =>
      rw [listMax] at h
      cases hds : listMax ds with
      | none =>
          rw [hds] at h
          simp at h
          simp [h]
      | some m' =>
          rw [hds] at h
          simp at h
          rcases max_choice d m' with hm | hm
          · rw [hm] at h
            simp [h]
          · rw [hm] at h
            subst h
            exact List.mem_cons_of_mem _ (ih hds)

theorem le_listMax {l : List ℕ} {x : ℕ} (h : x ∈ l) :
    ∃ m, listMax l = Option.some m ∧ x ≤ m := by
  induction l with
  | nil => simp at h
  | cons d ds ih =>
      rcases List.mem_cons.mp h with hx | hx
      · subst hx
        cases hds : listMax ds with
        | none => exact ⟨x, by simp [listMax, hds], le_refl x⟩
        | some m' => exact ⟨max x m', by simp [listMax, hds], le_max_left x m'⟩
      · rcases ih hx with ⟨m, hm, hxm⟩
        cases hds : listMax ds with
        | none => rw [hds] at hm; cases hm
        | some m' =>
            rw [hds] at hm
            cases hm
            exact ⟨max d m, by simp [listMax, hds], hxm.trans (le_max_right d m)⟩

/-- C4: classification is the pure total threshold function of the
composite score: missing maps to `no-data`, `c ≤ −1` to `alert`,
`−1 < c ≤ −0.5` to `watch`, `c > −0.5` to `normal`; the boundary values
`−1` and `−0.5` classify as `alert` and `watch` (closed lower tiers), and
severity is monotonic non-increasing as the score increases. -/
theorem classify_spec :
    _classify Option.none = "no-data" ∧
    (∀ c : ℚ, c ≤ -1 → _classify (Option.some c) = "alert") ∧
    (∀ c : ℚ, -1 < c → c ≤ -(1/2) → _classify (Option.some c) = "watch") ∧
    (∀ c : ℚ, -(1/2) < c → _classify (Option.some c) = "normal") ∧
    _classify (Option.some (-1)) = "alert" ∧
    _classify (Option.some (-(1/2))) = "watch" ∧
    (∀ c₁ c₂ : ℚ, c₁ ≤ c₂ →
      severity (_classify (Option.some c₂)) ≤ severity (_classify (Option.some c₁))) := by
  have hA : ALERT_T = -1 := by norm_num [ALERT_T]
  have hW : WATCH_T = -(1/2) := by norm_num [WATCH_T]
  refine ⟨rfl, ?_, ?_, ?_, ?_, ?_, ?_⟩
  · intro c h
    simp only [_classify, hA]
    rw [if_pos h]
  · intro c h1 h2
    simp only [_classify, hA, hW]
    rw [if_neg (by linarith), if_pos h2]
  · intro c h
    simp only [_classify, hA, hW]
    rw [if_neg (by linarith), if_neg (by linarith)]
  · simp only [_classify, hA]
    rw [if_pos le_rfl]
  · simp only [_classify, hA, hW]
    rw [if_neg (by norm_num), if_pos le_rfl]
  · intro c₁ c₂ h
    simp only [_classify, hA, hW]
    split_ifs <;> simp [severity] <;> linarith

/-- Witness for `classify_spec` at concrete scores. -/
theorem classify_spec_witness :
    _classify (Option.some (-2)) = "alert" ∧
    _classify (Option.some (-(7/10))) = "watch" ∧
    _classify (Option.some 0) = "normal" ∧
    severity (_classify (Option.some 0)) ≤ severity (_classify (Option.some (-2))) :=
  ⟨classify_spec.2.1 (-2) (by norm_num),
   classify_spec.2.2.1 (-(7/10)) (by norm_num) (by norm_num),
   classify_spec.2.2.2.1 0 (by norm_num),
   classify_spec.2.2.2.2.2.2 (-2) 0 (by norm_num)⟩

/-- C6: for every source-column choice and source z-score, `rain_z` is the
exact negation of `rain_def_z`; with a `rain` column, `rain_z` is the real
score and `rain_def_z` its negation; with a `rain_def` column the roles
invert; with no precipitation source both are missing. -/
theorem rain_sign_spec (c : RainCol) (z : Option ℚ) :
    (rainPair c z).1 = Option.map (fun v => -v) (rainPair c z).2 ∧
    (c = RainCol.rain →
      (rainPair c z).1 = z ∧ (rainPair c z).2 = z.map (fun v => -v)) ∧
    (c = RainCol.rain_def →
      (rainPair c z).2 = z ∧ (rainPair c z).1 = z.map (fun v => -v)) ∧
    (c = RainCol.absent →
      (rainPair c z).1 = Option.none ∧ (rainPair c z).2 = Option.none) := by
  cases c <;> cases z <;> simp [rainPair]

/-- Witness for `rain_sign_spec`: a `rain` source column with z-score 2. -/
theorem rain_sign_witness :
    (rainPair RainCol.rain (Option.some 2)).1 =
      Option.map (fun v => -v) (rainPair RainCol.rain (Option.some 2)).2 ∧
    (rainPair RainCol.rain (Option.some 2)).1 = Option.some 2 ∧
    (rainPair RainCol.rain (Option.some 2)).2 = (Option.some (2 : ℚ)).map (fun v => -v) :=
  ⟨(rain_sign_spec RainCol.rain (Option.some 2)).1,
   ((rain_sign_spec RainCol.rain (Option.some 2)).2.1 rfl).1,
   ((rain_sign_spec RainCol.rain (Option.some 2)).2.1 rfl).2⟩

/-- Counterexample to C1 as stated: at a basin-month whose only available
signal is precipitation (a `rain` source column with z-score 1, so
`rain_z = 1` and `rain_def_z = -1`), the code's composite is `rain_z = 1`,
while the claimed weighted average over the available scores with the
rain-deficit score as the rain component yields `-1`. -/
theorem asi_rain_component_cex :
    asiOf Option.none Option.none (rainPair RainCol.rain (Option.some 1)).1 = Option.some 1 ∧
    specComposite [(W_TWSA, Option.none), (W_SM, Option.none),
      (W_RAIN, (rainPair RainCol.rain (Option.some 1)).2)] = Option.some (-1) ∧
    asiOf Option.none Option.none (rainPair RainCol.rain (Option.some 1)).1 ≠
      specComposite [(W_TWSA, Option.none), (W_SM, Option.none),
        (W_RAIN, (rainPair RainCol.rain (Option.some 1)).2)] := by
  norm_num [asiOf, asiDen, asiNum, maskW, fill0, specComposite, rainPair, W_TWSA, W_SM,
    W_RAIN, List.filterMap_cons, List.filterMap_nil, List.map_cons, List.map_nil,
    List.sum_cons, List.sum_nil]

/-- C1 amended: for every basin-month, the composite index equals the
weighted average, over the available standard scores, of `twsa_z` (weight
0.4), `sm_z` (weight 0.4) and the rain-surplus score `rain_z` — the exact
negation of `rain_def_z` — with nominal weight 0.2. -/
theorem asi_weighted_average_amended (tz sz rz : Option ℚ) :
    asiOf tz sz rz = specComposite [(W_TWSA, tz), (W_SM, sz), (W_RAIN, rz)] := by
  rcases tz with _ | a <;> rcases sz with _ | b <;> rcases rz with _ | c <;>
    norm_num [asiOf, asiDen, asiNum, maskW, fill0, specComposite, W_TWSA, W_SM, W_RAIN,
      List.filterMap_cons, List.filterMap_nil, List.map_cons, List.map_nil,
      List.sum_cons, List.sum_nil] <;>
    ring_nf <;> simp

/-- C3: for every basin-month with at least one standard score present,
the weight denominator is positive, the effective weights (masked nominal
weight over denominator) sum to 1, they are proportional to the nominal
weights `(0.4, 0.4, 0.2)` restricted to the present subset (zero on the
absent components), and the composite is the effective-weight combination
of the present scores; with no score present the composite is missing. -/
theorem effective_weights_spec (tz sz rz : Option ℚ) :
    ((tz.isSome = true ∨ sz.isSome = true ∨ rz.isSome = true) →
      0 < asiDen tz sz rz ∧
      effW tz W_TWSA (asiDen tz sz rz) + effW sz W_SM (asiDen tz sz rz) +
        effW rz W_RAIN (asiDen tz sz rz) = 1 ∧
      (∃ k : ℚ, 0 < k ∧
        (tz.isSome = true → effW tz W_TWSA (asiDen tz sz rz) = k * W_TWSA) ∧
        (sz.isSome = true → effW sz W_SM (asiDen tz sz rz) = k * W_SM) ∧
        (rz.isSome = true → effW rz W_RAIN (asiDen tz sz rz) = k * W_RAIN) ∧
        (tz.isSome = false → effW tz W_TWSA (asiDen tz sz rz) = 0) ∧
        (sz.isSome = false → effW sz W_SM (asiDen tz sz rz) = 0) ∧
        (rz.isSome = false → effW rz W_RAIN (asiDen tz sz rz) = 0)) ∧
      asiOf tz sz rz = Option.some
        (effW tz W_TWSA (asiDen tz sz rz) * fill0 tz +
         effW sz W_SM (asiDen tz sz rz) * fill0 sz +
         effW rz W_RAIN (asiDen tz sz rz) * fill0 rz)) ∧
    (tz = Option.none → sz = Option.none → rz = Option.none →
      asiOf tz sz rz = Option.none) := by
  constructor
  · intro hsome
    have hden : 0 < asiDen tz sz rz := by
      rcases tz with _ | a <;> rcases sz with _ | b <;> rcases rz with _ | c <;>
        norm_num [asiDen, maskW, W_TWSA, W_SM, W_RAIN]
      simp at hsome
    refine ⟨hden, ?_, ⟨1 / asiDen tz sz rz, by positivity, ?_, ?_, ?_, ?_, ?_, ?_⟩, ?_⟩
    · rcases tz with _ | a <;> rcases sz with _ | b <;> rcases rz with _ | c <;>
        norm_num [effW, asiDen, maskW, W_TWSA, W_SM, W_RAIN]
      simp at hsome
    · intro h
      simp only [effW, maskW, h, if_true]
      ring
    · intro h
      simp only [effW, maskW, h, if_true]
      ring
    · intro h
      simp only [effW, maskW, h, if_true]
      ring
    · intro h
      simp [effW, maskW, h]
    · intro h
      simp [effW, maskW, h]
    · intro h
      simp [effW, maskW, h]
    · rcases tz with _ | a <;> rcases sz with _ | b <;> rcases rz with _ | c
      · exact absurd hsome (by simp)
      all_goals norm_num [asiOf, asiDen, asiNum, maskW, fill0, effW, W_TWSA, W_SM, W_RAIN]
      all_goals ring_nf
  · intro ht hs hr
    subst ht
    subst hs
    subst hr
    norm_num [asiOf, asiDen, maskW]

/-- Witness for `effective_weights_spec`: a row with only the storage and
rain scores present (`twsa_z = 1`, `rain_z = -1`). -/
theorem effective_weights_witness :
    ((Option.some (1 : ℚ)).isSome = true ∨ (Option.none : Option ℚ).isSome = true ∨
      (Option.some (-1 : ℚ)).isSome = true) ∧
    0 < asiDen (Option.some 1) Option.none (Option.some (-1)) ∧
    effW (Option.some 1) W_TWSA (asiDen (Option.some 1) Option.none (Option.some (-1))) +
      effW Option.none W_SM (asiDen (Option.some 1) Option.none (Option.some (-1))) +
      effW (Option.some (-1)) W_RAIN (asiDen (Option.some 1) Option.none (Option.some (-1))) = 1 :=
  ⟨Or.inl rfl,
   ((effective_weights_spec (Option.some 1) Option.none (Option.some (-1))).1 (Or.inl rfl)).1,
   ((effective_weights_spec (Option.some 1) Option.none (Option.some (-1))).1 (Or.inl rfl)).2.1⟩

/-- C5: the selected default month is the chronologically latest month
having at least one row with a non-missing composite (every covered row's
date is bounded by it and it is itself a covered date); when no row has a
composite, it falls back to the latest month present at all. -/
theorem coverage_selection_spec (rows : List OutRow) :
    (∀ r, r ∈ rows → r.asi.isSome = true →
      ∃ d, coverageDate rows = Option.some d ∧ r.date ≤ d ∧
        ∃ q, q ∈ rows ∧ q.date = d ∧ q.asi.isSome = true) ∧
    ((∀ r, r ∈ rows → r.asi = Option.none) →
      coverageDate rows = listMax (rows.map (fun r => r.date))) := by
  constructor
  · intro r hr ha
    have hmem : r.date ∈ datesWithCov rows :=
      List.mem_map_of_mem _ (List.mem_filter.mpr ⟨hr, ha⟩)
    obtain ⟨m, hm, hle⟩ := le_listMax hmem
    refine ⟨m, ?_, hle, ?_⟩
    · rw [coverageDate, hm]
    · have hmm := listMax_mem hm
      rcases List.mem_map.mp hmm with ⟨q, hq, hqd⟩
      rcases List.mem_filter.mp hq with ⟨hq1, hq2⟩
      exact ⟨q, hq1, hqd, hq2⟩
  · intro hall
    have hnil : datesWithCov rows = [] := by
      rw [datesWithCov]
      have hf : rows.filter (fun r => r.asi.isSome) = [] := by
        rw [List.filter_eq_nil_iff]
        intro a ha
        simp [hall a ha]
      rw [hf]
      rfl
    rw [coverageDate, hnil]
    rfl

/-- Witness for `coverage_selection_spec`: on `demoCov` (month 1 has two
numeric composite values, month 2 is later and all-missing) the default
snapshot resolves to month 1; on the all-missing `demoNoCov` it falls back
to the latest month present. -/
theorem coverage_selection_witness :
    coverageDate demoCov = Option.some 1 ∧
    (∃ d, coverageDate demoCov = Option.some d ∧
      (mkRow0 "B1" 1 (Option.some (-1.2))).date ≤ d ∧
      ∃ q, q ∈ demoCov ∧ q.date = d ∧ q.asi.isSome = true) ∧
    coverageDate demoNoCov = listMax (demoNoCov.map (fun r => r.date)) :=
  ⟨by decide,
   (coverage_selection_spec demoCov).1 (mkRow0 "B1" 1 (Option.some (-1.2)))
     (by simp [demoCov]) rfl,
   (coverage_selection_spec demoNoCov).2 (by decide)⟩

/-- Counterexample to C7 as stated: a run whose wide table has one row with
`twsa_z = 1` and `rain_z = -1` persists the composite value `1/3` in the
table, and `1/3` is not equal to its own 3-decimal rounding — the table
writer applies no rounding. -/
theorem table_rounding_cex :
    (outputTable [mkWide0 "A" 0 (Option.some 1) Option.none (Option.some (-1))]).map
        (fun r => r.asi) = [Option.some (1/3)] ∧
    round3 (1/3) ≠ (1/3 : ℚ) := by
  constructor
  · norm_num [outputTable, mkWide0, mkOut, asiOf, asiDen, asiNum, maskW, fill0,
      W_TWSA, W_SM, W_RAIN, List.insertionSort, List.orderedInsert]
  · norm_num [round3, roundHalfEven]

/-- C7 amended: the persisted table is (a permutation induced by sorting
of) the rows with every numeric column copied verbatim — at full
precision, with no rounding — and the derived composite exactly
`asiOf`; a missing cell serializes as the empty field, never as `0` nor as
`nan`; the 3-decimal rounding `_r` is applied only in the snapshot/query
layer, where it keeps missing values missing. -/
theorem table_serialization_amended (rows : List WideRow) (render : ℚ → String) :
    (outputTable rows).Perm (rows.map mkOut) ∧
    (∀ r : WideRow,
      (mkOut r).twsa = r.twsa ∧ (mkOut r).sm = r.sm ∧ (mkOut r).rain = r.rain ∧
      (mkOut r).rain_def = r.rain_def ∧ (mkOut r).twsa_z = r.twsa_z ∧
      (mkOut r).sm_z = r.sm_z ∧ (mkOut r).rain_z = r.rain_z ∧
      (mkOut r).rain_def_z = r.rain_def_z ∧
      (mkOut r).asi = asiOf r.twsa_z r.sm_z r.rain_z) ∧
    csvCell render Option.none = "" ∧ ("" : String) ≠ "0" ∧ ("" : String) ≠ "nan" ∧
    _r Option.none = Option.none ∧ (∀ q : ℚ, _r (Option.some q) = Option.some (round3 q)) := by
  refine ⟨List.perm_insertionSort _ _, ?_, rfl, by decide, by decide, rfl, fun q => rfl⟩
  intro r
  exact ⟨rfl, rfl, rfl, rfl, rfl, rfl, rfl, rfl, rfl⟩

/-- C8: the history endpoint fails with the not-found error exactly when
the basin has zero rows; otherwise it returns every row of that basin, in
table order, with the derived (rounded) fields; and on a pipeline-produced
table the returned rows are in chronological order.  All-missing composite
values are not an error: the result only depends on row membership. -/
theorem history_spec (table : List OutRow) (bid : String) :
    (asi_history table bid = Except.error ("No history for basin_id=" ++ bid) ↔
      table.filter (fun row => row.basin_id = bid) = []) ∧
    (table.filter (fun row => row.basin_id = bid) ≠ [] →
      asi_history table bid =
        Except.ok ((table.filter (fun row => row.basin_id = bid)).map toRec)) ∧
    (∀ src l, asi_history (outputTable src) bid = Except.ok l →
      l.Pairwise (fun a b => a.date ≤ b.date)) := by
  have hmain : ∀ t : List OutRow,
      (t.filter (fun row => row.basin_id = bid) = [] →
        asi_history t bid = Except.error ("No history for basin_id=" ++ bid)) ∧
      (t.filter (fun row => row.basin_id = bid) ≠ [] →
        asi_history t bid = Except.ok ((t.filter (fun row => row.basin_id = bid)).map toRec)) := by
    intro t
    constructor
    · intro h
      simp [asi_history, h]
    · intro h
      have hm : (t.filter (fun row => row.basin_id = bid)).map toRec ≠ [] := by
        simpa [List.map_eq_nil_iff] using h
      simp [asi_history, hm]
  refine ⟨⟨?_, (hmain table).1⟩, (hmain table).2, ?_⟩
  · intro h
    by_contra hne
    have hok := (hmain table).2 hne
    rw [hok] at h
    cases h
  · intro src l hl
    have hsort : (outputTable src).Pairwise outLe := List.sorted_insertionSort outLe _
    have hfil : ((outputTable src).filter (fun row => row.basin_id = bid)).Pairwise outLe :=
      hsort.filter _
    have hdate : ((outputTable src).filter (fun row => row.basin_id = bid)).Pairwise
        (fun a b => a.date ≤ b.date) := by
      refine List.Pairwise.imp_of_mem ?_ hfil
      intro a b ha hb hab
      have ha' : a.basin_id = bid := by simpa using (List.mem_filter.mp ha).2
      have hb' : b.basin_id = bid := by simpa using (List.mem_filter.mp hb).2
      rcases hab with h1 | ⟨_, h2⟩
      · exfalso
        rw [ha', hb'] at h1
        exact lt_irrefl _ h1
      · exact h2
    have hll : ((outputTable src).filter (fun row => row.basin_id = bid)).map toRec = l := by
      by_cases hc : (outputTable src).filter (fun row => row.basin_id = bid) = []
      · rw [(hmain _).1 hc] at hl
        cases hl
      · rw [(hmain _).2 hc] at hl
        injection hl
    rw [← hll]
    exact (List.pairwise_map).mpr hdate

/-- Witness for `history_spec`: basin `B1` of `demoHist` has two rows with
all-missing composite scores, and history still returns them (no error);
on the pipeline output of the out-of-order `demoSrc`, the returned rows
are chronologically sorted. -/
theorem history_spec_witness :
    demoHist.filter (fun row => row.basin_id = "B1") ≠ [] ∧
    asi_history demoHist "B1" =
      Except.ok ((demoHist.filter (fun row => row.basin_id = "B1")).map toRec) ∧
    demoHistOut.Pairwise (fun a b : HistRec => a.date ≤ b.date) :=
  ⟨by decide,
   (history_spec demoHist "B1").2.1 (by decide),
   (history_spec demoHist "B1").2.2 demoSrc demoHistOut rfl⟩

/-- C9: ranking with the empty class filter is unfiltered — it returns the
numeric-scored basins, sorted ascending by composite score, truncated to
`max 0 limit`; in particular with a large enough limit it is a permutation
of all numeric-scored rows, and limit 0 returns the empty list for every
class filter. -/
theorem top10_empty_filter_spec (features : List Feature) (limit : ℤ) :
    List.Pairwise rankLe (asi_top10 features limit "") ∧
    (asi_top10 features limit "").length =
      min (max 0 limit).toNat (numRows features).length ∧
    ((numRows features).length ≤ (max 0 limit).toNat →
      (asi_top10 features limit "").Perm (numRows features)) ∧
    (∀ cs, asi_top10 features 0 cs = []) := by
  have hw : wantedOf "" = [] := by decide
  have heq : asi_top10 features limit "" =
      (List.insertionSort rankLe (numRows features)).take (max 0 limit).toNat := by
    simp [asi_top10, hw]
  refine ⟨?_, ?_, ?_, ?_⟩
  · rw [heq]
    exact List.Pairwise.sublist (List.take_sublist _ _) (List.sorted_insertionSort rankLe _)
  · rw [heq, List.length_take, List.length_insertionSort]
  · intro hlen
    rw [heq, List.take_of_length_le]
    · exact List.perm_insertionSort rankLe _
    · rw [List.length_insertionSort]
      exact hlen
  · intro cs
    simp [asi_top10]

/-- Witness for `top10_empty_filter_spec`: on `demoFeatures` (two numeric
rows) with limit 10, the empty-filter ranking is a permutation of all
numeric-scored rows. -/
theorem top10_empty_filter_witness :
    (numRows demoFeatures).length ≤ (max 0 (10 : ℤ)).toNat ∧
    (asi_top10 demoFeatures 10 "").Perm (numRows demoFeatures) :=
  ⟨by decide, (top10_empty_filter_spec demoFeatures 10).2.2.1 (by decide)⟩

/-- C10: the ranking endpoint's class filter defaults to
`"alert,watch"`, i.e. the set containing `alert` and `watch`: every row of
a default-filtered ranking is classified `alert` or `watch` (so `normal`
basins are excluded even with a numeric score), and on `demoFeatures` the
default ranking differs from the unfiltered one. -/
theorem top10_default_filter_spec :
    wantedOf defaultClasses = ["alert", "watch"] ∧
    (∀ (features : List Feature) (limit : ℤ) (r : RankRow),
      r ∈ asi_top10 features limit defaultClasses →
      r.cls = "alert" ∨ r.cls = "watch") ∧
    asi_top10 demoFeatures 10 defaultClasses ≠ asi_top10 demoFeatures 10 "" := by
  have hw : wantedOf defaultClasses = ["alert", "watch"] := by decide
  have hwne : ¬ wantedOf defaultClasses = [] := by decide
  refine ⟨hw, ?_, ?_⟩
  · intro features limit r hr
    have heq : asi_top10 features limit defaultClasses =
        (List.insertionSort rankLe
          ((numRows features).filter (fun q => q.cls ∈ wantedOf defaultClasses))).take
          (max 0 limit).toNat := by
      simp [asi_top10, hwne]
    rw [heq] at hr
    have h1 := List.take_subset _ _ hr
    have h2 : r ∈ (numRows features).filter (fun q => q.cls ∈ wantedOf defaultClasses) :=
      (List.Perm.mem_iff (List.perm_insertionSort rankLe _)).mp h1
    have h3 := (List.mem_filter.mp h2).2
    rw [hw] at h3
    simpa using h3
  · have hd : asi_top10 demoFeatures 10 defaultClasses =
        [{ basin_id := "A", name := "A", asi := -3/2, cls := "alert",
           date := Option.some 1 }] := by
      norm_num [asi_top10, numRows, demoFeatures, mkRankRow, wantedOf, splitCommas, stripChars,
        defaultClasses, round3, roundHalfEven, rankLe, List.insertionSort, List.orderedInsert,
        List.filterMap]
    have hu : asi_top10 demoFeatures 10 "" =
        [{ basin_id := "A", name := "A", asi := -3/2, cls := "alert",
           date := Option.some 1 },
         { basin_id := "B", name := "B", asi := 1/5, cls := "normal",
           date := Option.some 1 }] := by
      norm_num [asi_top10, numRows, demoFeatures, mkRankRow, wantedOf, splitCommas, stripChars,
        round3, roundHalfEven, rankLe, List.insertionSort, List.orderedInsert, List.filterMap]
    rw [hd, hu]
    simp

/-- Witness for `top10_default_filter_spec`: the alert row of
`demoFeatures` is in the default-filtered ranking, and its class is
`alert` or `watch`. -/
theorem top10_default_filter_witness :
    demoAlertRow ∈ asi_top10 demoFeatures 10 defaultClasses ∧
    (demoAlertRow.cls = "alert" ∨ demoAlertRow.cls = "watch") := by
  have hmem : demoAlertRow ∈ asi_top10 demoFeatures 10 defaultClasses := by
    norm_num [demoAlertRow, asi_top10, numRows, demoFeatures, mkRankRow, wantedOf, splitCommas,
      stripChars, defaultClasses, round3, roundHalfEven, rankLe, List.insertionSort,
      List.orderedInsert, List.filterMap]
    simp [List.take]
  exact ⟨hmem, top10_default_filter_spec.2.1 demoFeatures 10 _ hmem⟩

theorem popVar_nonneg (l : List ℝ) : 0 ≤ popVar l := by
  rw [popVar]
  apply div_nonneg
  · apply List.sum_nonneg
    intro x hx
    rcases List.mem_map.mp hx with ⟨y, _, rfl⟩
    positivity
  · positivity

theorem popVar_short (l : List ℝ) (h : l.length < 2) : popVar l = 0 := by
  match l, h with
  | [], _ => simp [popVar]
  | [x], _ => simp [popVar, seriesMean]

/-- C2: each standard score is computed from the row's own basin's history
only — with at least two non-missing observations of non-zero population
variance, the score of a present value `v` is exactly
`(v - mean) / popStd` over that basin's series; with fewer than two
observations or zero variance every score of the basin is missing (never
zero); and two tables with the same series for the row's basin give the
row identical scores, so other basins' values are irrelevant. -/
theorem z_by_basin_spec (t : List SigRow) (r : SigRow) :
    ((2 ≤ (basinVals t r.basin).length ∧ popVar (basinVals t r.basin) ≠ 0) →
      ∀ v, r.val = Option.some v →
        zTransform t r = Option.some
          ((v - seriesMean (basinVals t r.basin)) / popStd (basinVals t r.basin))) ∧
    (((basinVals t r.basin).length < 2 ∨ popVar (basinVals t r.basin) = 0) →
      zTransform t r = Option.none) ∧
    (∀ t' : List SigRow, basinVals t' r.basin = basinVals t r.basin →
      zTransform t' r = zTransform t r) := by
  refine ⟨?_, ?_, ?_⟩
  · rintro ⟨hlen, hvar⟩ v hv
    have hpos : 0 < popStd (basinVals t r.basin) := by
      rw [popStd]
      exact Real.sqrt_pos.mpr (lt_of_le_of_ne (popVar_nonneg _) (Ne.symm hvar))
    rw [zTransform, if_pos hpos, hv]
    rfl
  · intro h
    have hz : popVar (basinVals t r.basin) = 0 := by
      rcases h with h | h
      · exact popVar_short _ h
      · exact h
    have hs : popStd (basinVals t r.basin) = 0 := by
      rw [popStd, hz, Real.sqrt_zero]
    rw [zTransform, if_neg]
    rw [hs]
    exact lt_irrefl 0
  · intro t' ht
    rw [zTransform, zTransform, ht]

/-- Witness for `z_by_basin_spec`: basin `A` of `demoSig` has the history
`[0, 2]` (mean 1, population variance 1), and the score of its value 2 is
`(2 - 1) / 1 = 1`. -/
theorem z_by_basin_witness :
    (2 ≤ (basinVals demoSig demoSigRow.basin).length ∧
      popVar (basinVals demoSig demoSigRow.basin) ≠ 0) ∧
    zTransform demoSig demoSigRow = Option.some 1 := by
  have hb : basinVals demoSig demoSigRow.basin = [0, 2] := by
    simp [basinVals, demoSig, demoSigRow, List.filterMap]
  have hmean : seriesMean [(0 : ℝ), 2] = 1 := by
    norm_num [seriesMean]
  have hvar : popVar [(0 : ℝ), 2] = 1 := by
    norm_num [popVar, seriesMean]
  have hstd : popStd [(0 : ℝ), 2] = 1 := by
    rw [popStd, hvar, Real.sqrt_one]
  have hypo : 2 ≤ (basinVals demoSig demoSigRow.basin).length ∧
      popVar (basinVals demoSig demoSigRow.basin) ≠ 0 := by
    rw [hb]
    exact ⟨by norm_num, by rw [hvar]; norm_num⟩
  have happ := (z_by_basin_spec demoSig demoSigRow).1 hypo 2 rfl
  rw [hb, hstd, hmean] at happ
  norm_num at happ
  exact ⟨hypo, happ⟩
